import Mathlib

/-!
Verification of the AMR_Altern wheeled-robot firmware.

This file gives a shallow embedding, in Lean 4, of the parts of the
firmware that the specification talks about:

* the quadrature pulse counter (`Encoder.cpp`),
* the BTS7960 motor driver and its two closed-loop velocity-control
  variants (`MotorDriver.cpp` of the reworked sketch and of the original
  `AMR_Complete` sketch),
* dead-reckoning odometry (`Odometry.cpp`),
* the navigation globals of the main sketch: route execution,
  wall following, automatic encoder-terminated turns and the nested
  obstacle-avoidance machine.

C `int`/`long` values are modelled as `ℤ`, `unsigned long` millisecond
timestamps as `ℕ`, `float` quantities as `ℝ` (or `ℚ` where no
transcendental constant is involved, so the definition stays
executable).  Serial prints and pin writes are dropped; the last PWM
duty written to each motor channel is kept in the state so that motion
commands are observable.
-/

namespace AMR

/-! ### Generic Arduino/C helpers -/

/-- Arduino `constrain(x, lo, hi)`. -/
def constrain (x lo hi : ℤ) : ℤ :=
  if x < lo then lo else if hi < x then hi else x

/-- C `round` / `roundf`: round half away from zero, as used by casts like
`(int)round(speed * RIGHT_MOTOR_COMPENSATION)`. -/
def roundAway (q : ℚ) : ℤ :=
  if 0 ≤ q then ⌊q + 1 / 2⌋ else -⌊-q + 1 / 2⌋

/-- One C loop `while (a > b) a -= 2*b;` over the reals (the source uses it
with `b = 180` for degrees and `b = π` for radians).  The `0 < b` guard
only serves termination; every use instantiates `b` positively. -/
noncomputable def wrapDown (b a : ℝ) : ℝ :=
  if h : 0 < b ∧ b < a then wrapDown b (a - 2 * b) else a
termination_by (⌈(a - b) / (2 * b)⌉).toNat
decreasing_by
  have hb : (0 : ℝ) < 2 * b := by linarith [h.1]
  have hkey : (a - 2 * b - b) / (2 * b) = (a - b) / (2 * b) - 1 := by
    field_simp
    ring
  have hpos : 0 < ⌈(a - b) / (2 * b)⌉ :=
    Int.ceil_pos.mpr (div_pos (by linarith [h.2]) hb)
  simp only [hkey, Int.ceil_sub_one]
  omega

/-- One C loop `while (a < -b) a += 2*b;` over the reals. -/
noncomputable def wrapUp (b a : ℝ) : ℝ :=
  if h : 0 < b ∧ a < -b then wrapUp b (a + 2 * b) else a
termination_by (⌈(-b - a) / (2 * b)⌉).toNat
decreasing_by
  have hb : (0 : ℝ) < 2 * b := by linarith [h.1]
  have hkey : (-b - (a + 2 * b)) / (2 * b) = (-b - a) / (2 * b) - 1 := by
    field_simp
    ring
  have hpos : 0 < ⌈(-b - a) / (2 * b)⌉ :=
    Int.ceil_pos.mpr (div_pos (by linarith [h.2]) hb)
  simp only [hkey, Int.ceil_sub_one]
  omega

/-- Both normalization loops in source order: first pull the angle down
below `b`, then pull it up above `-b`.  With `b = 180` this is the
sketch's `normalizeAngle`; with `b = π` it is the inline loop pair in
`Odometry::update` and `startAutoTurn`. -/
noncomputable def normalizeAngle (b a : ℝ) : ℝ := wrapUp b (wrapDown b a)

theorem wrapDown_of_le {b a : ℝ} (h : a ≤ b) : wrapDown b a = a := by
  rw [wrapDown]
  simp only [dite_eq_right_iff]
  intro hc
  exact absurd h (not_le.mpr hc.2)

theorem wrapUp_of_le {b a : ℝ} (h : -b ≤ a) : wrapUp b a = a := by
  rw [wrapUp]
  simp only [dite_eq_right_iff]
  intro hc
  exact absurd h (not_le.mpr hc.2)

theorem wrapDown_le {b : ℝ} (hb : 0 < b) (a : ℝ) : wrapDown b a ≤ b := by
  induction a using wrapDown.induct b with
  | case1 a h ih => rw [wrapDown]; simpa [h] using ih
  | case2 a h =>
      rw [wrapDown]
      simp only [h, dite_false]
      rcases not_and_or.mp h with h1 | h2
      · exact absurd hb h1
      · exact le_of_not_lt h2

theorem wrapUp_ge {b : ℝ} (hb : 0 < b) (a : ℝ) : -b ≤ wrapUp b a := by
  induction a using wrapUp.induct b with
  | case1 a h ih => rw [wrapUp]; simpa [h] using ih
  | case2 a h =>
      rw [wrapUp]
      simp only [h, dite_false]
      rcases not_and_or.mp h with h1 | h2
      · exact absurd hb h1
      · exact le_of_not_lt h2

theorem wrapUp_le {b a : ℝ} (ha : a ≤ b) : wrapUp b a ≤ b := by
  induction a using wrapUp.induct b with
  | case1 a h ih =>
      rw [wrapUp]
      simp only [h, dite_true]
      exact ih (by linarith [h.2])
  | case2 a h =>
      rw [wrapUp]
      simpa [h] using ha

theorem wrapDown_sub (b a : ℝ) : ∃ k : ℤ, wrapDown b a = a - 2 * b * k := by
  induction a using wrapDown.induct b with
  | case1 a h ih =>
      obtain ⟨k, hk⟩ := ih
      exact ⟨k + 1, by rw [wrapDown, dif_pos h, hk]; push_cast; ring⟩
  | case2 a h => exact ⟨0, by rw [wrapDown, dif_neg h]; push_cast; ring⟩

theorem wrapUp_add (b a : ℝ) : ∃ k : ℤ, wrapUp b a = a + 2 * b * k := by
  induction a using wrapUp.induct b with
  | case1 a h ih =>
      obtain ⟨k, hk⟩ := ih
      exact ⟨k + 1, by rw [wrapUp, dif_pos h, hk]; push_cast; ring⟩
  | case2 a h => exact ⟨0, by rw [wrapUp, dif_neg h]; push_cast; ring⟩

theorem normalizeAngle_of_mem {b a : ℝ} (h1 : -b ≤ a) (h2 : a ≤ b) :
    normalizeAngle b a = a := by
  rw [normalizeAngle, wrapDown_of_le h2, wrapUp_of_le h1]

theorem normalizeAngle_mem {b : ℝ} (hb : 0 < b) (a : ℝ) :
    -b ≤ normalizeAngle b a ∧ normalizeAngle b a ≤ b :=
  ⟨wrapUp_ge hb _, wrapUp_le (wrapDown_le hb a)⟩

theorem normalizeAngle_sub (b a : ℝ) :
    ∃ k : ℤ, normalizeAngle b a = a + 2 * b * k := by
  obtain ⟨k1, hk1⟩ := wrapDown_sub b a
  obtain ⟨k2, hk2⟩ := wrapUp_add b (wrapDown b a)
  exact ⟨k2 - k1, by rw [normalizeAngle, hk2, hk1]; push_cast; ring⟩

/-! ### Encoder (quadrature pulse counter), from `Encoder.cpp` -/

/-- Static state of the `Encoder` class: the two volatile pulse counters
and the two direction-inversion flags (source defaults: left not
inverted, right inverted). -/
structure EncoderState where
  leftPulses : ℤ := 0
  rightPulses : ℤ := 0
  leftInverted : Bool := false
  rightInverted : Bool := true
  deriving DecidableEq, Repr

/-- The channel levels A and B sampled inside an edge interrupt. -/
structure QuadEdge where
  a : Bool
  b : Bool
  deriving DecidableEq, Repr

/-- Per-edge count delta: `-1` if the two channel levels agree, `+1`
otherwise, negated when the wheel's inversion flag is set. -/
def quadDelta (inverted : Bool) (e : QuadEdge) : ℤ :=
  let d : ℤ := if e.a = e.b then -1 else 1
  if inverted then -d else d

/-- `Encoder::leftEncoderISR`. -/
def leftEncoderISR (e : QuadEdge) (s : EncoderState) : EncoderState :=
  { s with leftPulses := s.leftPulses + quadDelta s.leftInverted e }

/-- `Encoder::rightEncoderISR`. -/
def rightEncoderISR (e : QuadEdge) (s : EncoderState) : EncoderState :=
  { s with rightPulses := s.rightPulses + quadDelta s.rightInverted e }

/-- `Encoder::readLeft`: the interrupt-masked (hence, in this sequential
model, plain) snapshot of the left counter. -/
def readLeft (s : EncoderState) : ℤ := s.leftPulses

/-- `Encoder::readRight`. -/
def readRight (s : EncoderState) : ℤ := s.rightPulses

/-- Deliver a sequence of quadrature edges to the left wheel's ISR. -/
def runLeftEdges (es : List QuadEdge) (s : EncoderState) : EncoderState :=
  es.foldl (fun t e => leftEncoderISR e t) s

/-- Deliver a sequence of quadrature edges to the right wheel's ISR. -/
def runRightEdges (es : List QuadEdge) (s : EncoderState) : EncoderState :=
  es.foldl (fun t e => rightEncoderISR e t) s

/-! ### Motor driver (open-loop PWM primitives), from the reworked
`MotorDriver.cpp` (`src/unnamed/part_002`).  The original
`AMR_Complete` file differs only in `setRightMotor`, which there has no
compensation factor and is textually the mirror of `setLeftMotor`. -/

/-- PWM duties last written to the two channels of one BTS7960 bridge. -/
structure PwmPair where
  rpwm : ℤ
  lpwm : ℤ
  deriving DecidableEq, Repr

/-- PWM duties last written to both wheels. -/
structure MotorsOut where
  left : PwmPair
  right : PwmPair
  deriving DecidableEq, Repr

def MAX_SPEED : ℤ := 255
def MIN_SPEED : ℤ := 80
def TURN_SPEED : ℤ := 51
def DEFAULT_SPEED : ℤ := 102

/-- `RIGHT_MOTOR_COMPENSATION` of the reworked driver (`0.85f`). -/
def rightComp : ℚ := 17 / 20

/-- `RIGHT_MOTOR_COMPENSATION` of the original `AMR_Complete` driver
(`1.1f`). -/
def rightCompMain : ℚ := 11 / 10

/-- `MotorDriver::setLeftMotor` (identical text in both driver files). -/
def setLeftMotor (speed : ℤ) : PwmPair :=
  let speed := constrain speed (-MAX_SPEED) MAX_SPEED
  if 0 < speed then
    let s := if speed < MIN_SPEED then MIN_SPEED else speed
    ⟨0, s⟩
  else if speed < 0 then
    let a := -speed
    let a := if a < MIN_SPEED then MIN_SPEED else a
    ⟨a, 0⟩
  else ⟨0, 0⟩

/-- `MotorDriver::setRightMotor` of the reworked driver: applies the
`0.85` compensation factor before the direction/minimum logic. -/
def setRightMotor (speed : ℤ) : PwmPair :=
  let speed := constrain speed (-MAX_SPEED) MAX_SPEED
  let comp := constrain (roundAway ((speed : ℚ) * rightComp)) (-MAX_SPEED) MAX_SPEED
  if 0 < comp then
    let f := if comp < MIN_SPEED ∧ 0 < comp then MIN_SPEED else comp
    ⟨0, f⟩
  else if comp < 0 then
    let a := -comp
    let a := if a < MIN_SPEED ∧ 0 < a then MIN_SPEED else a
    ⟨a, 0⟩
  else ⟨0, 0⟩

/-- `MotorDriver::setRightMotor` of the original `AMR_Complete` driver:
no compensation, mirror of `setLeftMotor`. -/
def setRightMotorMain (speed : ℤ) : PwmPair :=
  let speed := constrain speed (-MAX_SPEED) MAX_SPEED
  if 0 < speed then
    let s := if speed < MIN_SPEED then MIN_SPEED else speed
    ⟨0, s⟩
  else if speed < 0 then
    let a := -speed
    let a := if a < MIN_SPEED then MIN_SPEED else a
    ⟨a, 0⟩
  else ⟨0, 0⟩

/-- `MotorDriver::setBothMotors`. -/
def setBothMotors (l r : ℤ) : MotorsOut :=
  ⟨setLeftMotor l, setRightMotor r⟩

/-- `MotorDriver::stop`: all four PWM channels to zero. -/
def motorStop : MotorsOut := ⟨⟨0, 0⟩, ⟨0, 0⟩⟩

/-- `MotorDriver::moveForward(speed = DEFAULT_SPEED)`. -/
def moveForward (speed : ℤ := DEFAULT_SPEED) : MotorsOut :=
  let speed := constrain speed MIN_SPEED MAX_SPEED
  let rightSpeed := constrain (roundAway ((speed : ℚ) * rightComp)) 0 MAX_SPEED
  ⟨⟨0, speed⟩, ⟨0, rightSpeed⟩⟩

/-! ### Closed-loop velocity control, reworked driver
(`MotorDriver::updateVelocityControl` of `src/unnamed/part_002`):
independent measurement, ramp and PID per wheel. -/

/-- Private PID members of the reworked `MotorDriver` (per-wheel), with
the source's in-class initializers as defaults. -/
structure VelState where
  velocityControlEnabled : Bool := false
  lastPIDMillis : ℕ := 0
  pidIntervalMs : ℕ := 50
  targetPpsLeft : ℚ := 0
  targetPpsRight : ℚ := 0
  appliedPpsLeft : ℚ := 0
  appliedPpsRight : ℚ := 0
  kpL : ℚ := 2 / 25
  kiL : ℚ := 1 / 50
  kdL : ℚ := 1 / 500
  integralL : ℚ := 0
  prevErrorL : ℚ := 0
  kpR : ℚ := 2 / 25
  kiR : ℚ := 1 / 50
  kdR : ℚ := 1 / 500
  integralR : ℚ := 0
  prevErrorR : ℚ := 0
  integralClamp : ℚ := 500
  rampTimeMs : ℕ := 600
  deriving DecidableEq, Repr

/-- Soft-start ramp: move `applied` toward `target` by at most `maxDelta`,
clamping overshoot (the two-branch `if` chain in the source). -/
def rampToward (applied target maxDelta : ℚ) : ℚ :=
  if applied < target then
    let a := applied + maxDelta
    if target < a then target else a
  else if target < applied then
    let a := applied - maxDelta
    if a < target then target else a
  else applied

/-- Anti-windup: the two sequential clamping `if`s applied to the
integral accumulator. -/
def clampIntegral (x c : ℚ) : ℚ :=
  let x1 := if c < x then c else x
  if x1 < -c then -c else x1

/-- `MotorDriver::updateVelocityControl` of the reworked driver.  Returns
the updated PID state and, when the rate limiter passes, the
`(pwmLeft, pwmRight)` pair handed to `setBothMotors` (`none` models the
silent no-op). -/
def updateVelocityControl (s : VelState) (leftDeltaPulses rightDeltaPulses : ℤ)
    (dtMs now : ℕ) : VelState × Option (ℤ × ℤ) :=
  if s.velocityControlEnabled = false then (s, none)
  else if dtMs = 0 then (s, none)
  else if now - s.lastPIDMillis < s.pidIntervalMs then (s, none)
  else
    let elapsed : ℕ := now - s.lastPIDMillis
    let dt : ℚ := (elapsed : ℚ) / 1000
    let measPpsL : ℚ := (leftDeltaPulses : ℚ) / dt
    let measPpsR : ℚ := (rightDeltaPulses : ℚ) / dt
    let appliedL : ℚ :=
      if 0 < s.rampTimeMs then
        rampToward s.appliedPpsLeft s.targetPpsLeft
          (|s.targetPpsLeft| / (s.rampTimeMs : ℚ) * (elapsed : ℚ))
      else s.targetPpsLeft
    let appliedR : ℚ :=
      if 0 < s.rampTimeMs then
        rampToward s.appliedPpsRight s.targetPpsRight
          (|s.targetPpsRight| / (s.rampTimeMs : ℚ) * (elapsed : ℚ))
      else s.targetPpsRight
    let errorL := appliedL - measPpsL
    let integralL' := clampIntegral (s.integralL + errorL * dt) s.integralClamp
    let derivativeL := (errorL - s.prevErrorL) / dt
    let pidOutL := s.kpL * errorL + s.kiL * integralL' + s.kdL * derivativeL
    let errorR := appliedR - measPpsR
    let integralR' := clampIntegral (s.integralR + errorR * dt) s.integralClamp
    let derivativeR := (errorR - s.prevErrorR) / dt
    let pidOutR := s.kpR * errorR + s.kiR * integralR' + s.kdR * derivativeR
    let pwmLeft := constrain (roundAway pidOutL) (-MAX_SPEED) MAX_SPEED
    let pwmRight := constrain (roundAway (pidOutR * rightComp)) (-MAX_SPEED) MAX_SPEED
    ({ s with lastPIDMillis := now,
              appliedPpsLeft := appliedL, appliedPpsRight := appliedR,
              integralL := integralL', prevErrorL := errorL,
              integralR := integralR', prevErrorR := errorR },
     some (pwmLeft, pwmRight))

/-! ### Closed-loop velocity control, original `AMR_Complete` driver
(`src/AMR-main/arduino/src/AMR_Complete/MotorDriver.cpp`):
the two encoder deltas are averaged into a single measured value and a
single PID drives both wheels. -/

/-- Private PID members of the original `MotorDriver` (single
controller), with the source's in-class initializers as defaults. -/
structure VelStateMain where
  velocityControlEnabled : Bool := false
  lastPIDMillis : ℕ := 0
  pidIntervalMs : ℕ := 50
  targetPps : ℚ := 0
  appliedPps : ℚ := 0
  kp : ℚ := 2 / 25
  ki : ℚ := 1 / 50
  kd : ℚ := 1 / 500
  integral : ℚ := 0
  prevError : ℚ := 0
  integralClamp : ℚ := 500
  rampTimeMs : ℕ := 800
  deriving DecidableEq, Repr

/-- `MotorDriver::updateVelocityControl` of the original driver. -/
def updateVelocityControlMain (s : VelStateMain) (leftDeltaPulses rightDeltaPulses : ℤ)
    (dtMs now : ℕ) : VelStateMain × Option (ℤ × ℤ) :=
  if s.velocityControlEnabled = false then (s, none)
  else if dtMs = 0 then (s, none)
  else if now - s.lastPIDMillis < s.pidIntervalMs then (s, none)
  else
    let elapsed : ℕ := now - s.lastPIDMillis
    let dt : ℚ := (elapsed : ℚ) / 1000
    let avgDeltaPulses : ℚ := ((leftDeltaPulses : ℚ) + (rightDeltaPulses : ℚ)) / 2
    let measPps : ℚ := avgDeltaPulses / dt
    let applied : ℚ :=
      if 0 < s.rampTimeMs then
        rampToward s.appliedPps s.targetPps
          (|s.targetPps| / (s.rampTimeMs : ℚ) * (elapsed : ℚ))
      else s.targetPps
    let error := applied - measPps
    let integral' := clampIntegral (s.integral + error * dt) s.integralClamp
    let derivative := (error - s.prevError) / dt
    let pidOutput := s.kp * error + s.ki * integral' + s.kd * derivative
    let pwmBase := constrain (roundAway pidOutput) (-MAX_SPEED) MAX_SPEED
    let pwmLeft := pwmBase
    let pwmRight := constrain (roundAway ((pwmBase : ℚ) * rightCompMain)) (-MAX_SPEED) MAX_SPEED
    ({ s with lastPIDMillis := now, appliedPps := applied,
              integral := integral', prevError := error },
     some (pwmLeft, pwmRight))

/-! ### Odometry (dead reckoning), from `Odometry.cpp` and the geometry
constants of `Encoder.h` -/

def DEFAULT_PULSES_PER_REVOLUTION : ℤ := 3418

noncomputable def WHEEL_DIAMETER_CM : ℝ := 15.5

noncomputable def WHEEL_BASE_CM : ℝ := 63.5

/-- `WHEEL_CIRCUMFERENCE_CM = PI * WHEEL_DIAMETER_CM`. -/
noncomputable def WHEEL_CIRCUMFERENCE_CM : ℝ := Real.pi * WHEEL_DIAMETER_CM

/-- `Encoder::pulsesToCentimeters`, with the runtime-adjustable
pulses-per-revolution value passed explicitly. -/
noncomputable def pulsesToCentimeters (ppr pulses : ℤ) : ℝ :=
  ((pulses : ℝ) / (ppr : ℝ)) * WHEEL_CIRCUMFERENCE_CM

/-- Fields of the `Odometry` class. -/
structure OdometryState where
  x : ℝ := 0
  y : ℝ := 0
  theta : ℝ := 0
  lastLeftPulses : ℤ := 0
  lastRightPulses : ℤ := 0

/-- `DIST_EPS_CM` of `Odometry::update`. -/
noncomputable def DIST_EPS_CM : ℝ := 0.001

/-- `Odometry::update`, with the current encoder snapshots passed in
place of the `readLeft()`/`readRight()` calls. -/
noncomputable def odometryUpdate (ppr currentLeft currentRight : ℤ)
    (o : OdometryState) : OdometryState :=
  let deltaLeftCm := pulsesToCentimeters ppr (currentLeft - o.lastLeftPulses)
  let deltaRightCm := pulsesToCentimeters ppr (currentRight - o.lastRightPulses)
  let deltaDistance := (deltaLeftCm + deltaRightCm) / 2
  let deltaTheta := (deltaRightCm - deltaLeftCm) / WHEEL_BASE_CM
  let newTheta := normalizeAngle Real.pi (o.theta + deltaTheta)
  let pos :=
    if DIST_EPS_CM < |deltaDistance| then
      let midTheta := normalizeAngle Real.pi (o.theta + deltaTheta * 0.5)
      (o.x + deltaDistance * Real.cos midTheta, o.y + deltaDistance * Real.sin midTheta)
    else (o.x, o.y)
  { x := pos.1, y := pos.2, theta := newTheta,
    lastLeftPulses := currentLeft, lastRightPulses := currentRight }

/-- `Odometry::getThetaDegrees`. -/
noncomputable def getThetaDegrees (o : OdometryState) : ℝ :=
  o.theta * 180 / Real.pi

/-! ### Navigation globals of the main sketch (`src/unnamed/part_004`) -/

/-- `enum RouteState`. -/
inductive RouteState where
  | idle
  | waiting
  | turning
  | moving
  | done
  deriving DecidableEq, Repr

/-- `struct RouteExecution`, with the source's initializers as
defaults. -/
structure RouteExecution where
  active : Bool := false
  routeIndex : ℤ := 0
  direction : ℤ := 1
  requestMillis : ℕ := 0
  delayMs : ℕ := 0
  currentPoint : ℤ := 0
  state : RouteState := .idle
  awaitingConfirm : Bool := false
  waitingForReturnConfirm : Bool := false
  returnModeActive : Bool := false
  postFinishTurn : Bool := false
  obstacleActive : Bool := false
  obstacleSide : ℤ := 0
  obstacleState : ℤ := 0
  obstacleMoveStartLeft : ℤ := 0
  obstacleMoveStartRight : ℤ := 0
  obstacleMoveTargetPulses : ℤ := 0
  obstacleMoveMaxPulses : ℤ := 0
  obstacleProbePin : ℤ := -1
  obstacleWaitActive : Bool := false
  obstacleWaitStartMillis : ℕ := 0
  moveStartLeft : ℤ := 0
  moveStartRight : ℤ := 0
  moveTargetPulses : ℤ := 0
  targetX : ℝ := 0
  targetY : ℝ := 0

/-- `struct WallFollow`. -/
structure WallFollow where
  active : Bool := false
  side : ℤ := 0
  state : ℤ := 0
  allWallsDetectedStart : ℕ := 0
  routeResumePending : Bool := false
  resumeAction : ℤ := 0
  deriving DecidableEq, Repr

/-- The global mutable state the navigation code works on: the two
behavior singletons, the auto-turn globals, the runtime
pulses-per-revolution value, the live quadrature counters (read through
`encoders.readLeft/readRight`), the odometry pose, and the PWM duties
last written to the motor driver. -/
structure NavState where
  routeExec : RouteExecution := {}
  wallFollow : WallFollow := {}
  turningInProgress : Bool := false
  targetAngle : ℝ := 0
  turnTargetPulses : ℤ := 0
  turnStartLeft0 : ℤ := 0
  turnStartRight0 : ℤ := 0
  turnStartTime : ℕ := 0
  pulsesPerRevolution : ℤ := DEFAULT_PULSES_PER_REVOLUTION
  encLeft : ℤ := 0
  encRight : ℤ := 0
  odometry : OdometryState := {}
  motors : MotorsOut := motorStop

def ROUTE_COUNT : ℤ := 4

/-- Route tables `route0..route3` (waypoints in centimeters). -/
noncomputable def routesPoints : List (List (ℝ × ℝ)) :=
  [[(0, 0), (30, 0), (30, 30)],
   [(-10, 5), (0, 10), (10, 5), (0, 0)],
   [(-10, 5), (0, 10), (10, 5), (0, 0)],
   [(0, 0), (5, 0), (10, 5)]]

/-- `routesCounts[i]` (the source computes each entry as the element
count of the corresponding route array: 3, 4, 4, 3). -/
noncomputable def routesCounts (i : ℤ) : ℤ :=
  ((routesPoints.getD i.toNat []).length : ℤ)

/-- `routesPoints[i][p]`. -/
noncomputable def routePoint (i p : ℤ) : ℝ × ℝ :=
  (routesPoints.getD i.toNat []).getD p.toNat (0, 0)

def IR_RIGHT_SIDE_PIN : ℤ := 14
def IR_FRONT_RIGHT_PIN : ℤ := 15
def IR_FRONT_LEFT_PIN : ℤ := 18
def IR_LEFT_SIDE_PIN : ℤ := 19

def MAX_TURN_TIME : ℕ := 4000
noncomputable def OBSTACLE_THRESHOLD_CM : ℝ := 30
noncomputable def AVOID_STEP_CM : ℝ := 30
noncomputable def AVOID_CLEAR_MARGIN_CM : ℝ := 8
noncomputable def AVOID_MAX_STEP_CM : ℝ := 200
def OBSTACLE_DETECTION_DELAY_MS : ℕ := 2000

/-- The recurring idiom
`(long)((cm / WHEEL_CIRCUMFERENCE_CM) * pulsesPerRevolution + 0.5f)`
(truncation equals floor here because the operand is nonnegative
whenever `cm ≥ 0`). -/
noncomputable def cmToPulses (ppr : ℤ) (cm : ℝ) : ℤ :=
  ⌊cm / WHEEL_CIRCUMFERENCE_CM * (ppr : ℝ) + 0.5⌋

/-- Result of one `handleAutoTurn` call, standing in for the `OK` /
`Timeout` serial messages: `quiet` when nothing is reported. -/
inductive TurnSignal where
  | quiet
  | completed
  | timedOut
  deriving DecidableEq, Repr

/-- `stopRouteExecution`. -/
def stopRouteExecution (s : NavState) : NavState :=
  if s.routeExec.active = false then s
  else { s with routeExec := { s.routeExec with active := false, state := .idle },
                motors := motorStop }

/-- `stopWallFollowing`. -/
def stopWallFollowing (s : NavState) : NavState :=
  if s.wallFollow.active = false then s
  else { s with wallFollow := { s.wallFollow with active := false, state := 0 },
                motors := motorStop }

/-- `startWallFollowing(side)`: stops a running wall-follow and an
active route before activating wall following. -/
def startWallFollowing (side : ℤ) (s : NavState) : NavState :=
  let s1 := if s.wallFollow.active then stopWallFollowing s else s
  let s2 := if s1.routeExec.active then stopRouteExecution s1 else s1
  { s2 with wallFollow :=
      { active := true, side := side, state := 1, allWallsDetectedStart := 0,
        routeResumePending := false, resumeAction := 0 } }

/-- `startAutoTurn(angleDelta)`: computes the encoder pulse target from
the turn geometry, snapshots the counters and the start time, and
commands the two wheels in opposite directions at `TURN_SPEED`. -/
noncomputable def startAutoTurn (now : ℕ) (angleDelta : ℝ) (s : NavState) : NavState :=
  { s with
    turningInProgress := true
    targetAngle := normalizeAngle 180 (getThetaDegrees s.odometry + angleDelta)
    turnTargetPulses :=
      ⌊|angleDelta| * (s.pulsesPerRevolution : ℝ) * WHEEL_BASE_CM /
        (360 * WHEEL_DIAMETER_CM) + 0.5⌋
    turnStartLeft0 := s.encLeft
    turnStartRight0 := s.encRight
    turnStartTime := now
    motors := if 0 < angleDelta then setBothMotors TURN_SPEED (-TURN_SPEED)
              else setBothMotors (-TURN_SPEED) TURN_SPEED }

/-- `handleAutoTurn()`, including the source's actual control flow: the
obstacle-avoidance advance block sits after the (returning) completion
branch and is therefore reached only while `maxMoved` is still short of
the target, and the timeout check comes last. -/
noncomputable def handleAutoTurn (now : ℕ) (s : NavState) : NavState × TurnSignal :=
  if s.turningInProgress = false then (s, .quiet)
  else
    let dl := s.encLeft - s.turnStartLeft0
    let dr := s.encRight - s.turnStartRight0
    let maxMoved := max |dl| |dr|
    if s.turnTargetPulses ≤ maxMoved then
      let s1 := { s with motors := motorStop, turningInProgress := false }
      if s1.routeExec.postFinishTurn then
        if s1.routeExec.returnModeActive = false then
          ({ s1 with routeExec :=
              { s1.routeExec with
                  postFinishTurn := false, awaitingConfirm := true,
                  waitingForReturnConfirm := true, state := .waiting } },
           .completed)
        else
          ({ s1 with routeExec :=
              { s1.routeExec with
                  postFinishTurn := false, active := false, state := .done } },
           .completed)
      else (s1, .completed)
    else if s.routeExec.obstacleActive then
      if s.routeExec.obstacleState = 1 then
        ({ s with
            routeExec :=
              { s.routeExec with
                  obstacleState := 2,
                  obstacleMoveTargetPulses := cmToPulses s.pulsesPerRevolution AVOID_STEP_CM,
                  obstacleMoveStartLeft := s.encLeft,
                  obstacleMoveStartRight := s.encRight },
            motors := moveForward DEFAULT_SPEED }, .quiet)
      else if s.routeExec.obstacleState = 3 then
        ({ s with
            routeExec :=
              { s.routeExec with
                  obstacleState := 4,
                  obstacleMoveTargetPulses := cmToPulses s.pulsesPerRevolution AVOID_STEP_CM,
                  obstacleMoveStartLeft := s.encLeft,
                  obstacleMoveStartRight := s.encRight },
            motors := moveForward DEFAULT_SPEED }, .quiet)
      else (s, .quiet)
    else if MAX_TURN_TIME < now - s.turnStartTime then
      ({ s with motors := motorStop, turningInProgress := false }, .timedOut)
    else (s, .quiet)

/-- The `atan2f` convention used by `beginNextWaypoint`. -/
noncomputable def atan2 (y x : ℝ) : ℝ :=
  if 0 < x then Real.arctan (y / x)
  else if x < 0 then
    (if 0 ≤ y then Real.arctan (y / x) + Real.pi else Real.arctan (y / x) - Real.pi)
  else if 0 < y then Real.pi / 2
  else if y < 0 then -(Real.pi / 2)
  else 0

/-- `beginNextWaypoint()`: selects the next waypoint under the skip
rule (forward skips index 0, return skips the last index), handles
single-waypoint routes and end-of-leg 180° turns, and starts the turn
toward the selected waypoint. -/
noncomputable def beginNextWaypoint (now : ℕ) (s : NavState) : NavState :=
  let idx := s.routeExec.routeIndex
  if idx < 0 ∨ ROUTE_COUNT ≤ idx then stopRouteExecution s
  else
    let count := routesCounts idx
    if count ≤ 1 then
      if s.routeExec.returnModeActive = false then
        let s1 := { s with routeExec := { s.routeExec with postFinishTurn := true } }
        let s2 := startAutoTurn now 180 s1
        { s2 with routeExec := { s2.routeExec with state := .turning } }
      else
        { s with routeExec := { s.routeExec with active := false, state := .done } }
    else
      let effectiveCount := count - 1
      if effectiveCount ≤ s.routeExec.currentPoint then
        let s1 := { s with routeExec := { s.routeExec with postFinishTurn := true } }
        let s2 := startAutoTurn now 180 s1
        { s2 with routeExec := { s2.routeExec with state := .turning } }
      else
        let pIndex :=
          if s.routeExec.direction = 1 then s.routeExec.currentPoint + 1
          else count - 2 - s.routeExec.currentPoint
        if pIndex < 0 ∨ count ≤ pIndex then stopRouteExecution s
        else
          let p := routePoint idx pIndex
          let s1 := { s with routeExec := { s.routeExec with targetX := p.1, targetY := p.2 } }
          let desired := atan2 (p.2 - s.odometry.y) (p.1 - s.odometry.x) * 180 / Real.pi
          let delta := normalizeAngle 180 (desired - getThetaDegrees s.odometry)
          let s2 := startAutoTurn now delta s1
          { s2 with routeExec := { s2.routeExec with state := .turning } }

/-- `startRouteExecution(routeIndex, retorno, delayMilliseconds)`. -/
noncomputable def startRouteExecution (routeIndex : ℤ) (retorno : Bool)
    (delayMilliseconds : ℕ) (now : ℕ) (s : NavState) : Bool × NavState :=
  if s.routeExec.active then (false, s)
  else if routeIndex < 0 ∨ ROUTE_COUNT ≤ routeIndex then (false, s)
  else
    let s1 := { s with routeExec := { s.routeExec with
      active := true
      routeIndex := routeIndex
      direction := if retorno then -1 else 1
      requestMillis := now
      delayMs := delayMilliseconds
      currentPoint := 0
      state := if 0 < delayMilliseconds then .waiting else .idle
      awaitingConfirm := true } }
    (true, if delayMilliseconds = 0 then beginNextWaypoint now s1 else s1)

/-- Outcome of a `/confirm_route` request (`CONFIRMED_RETURN`,
`CONFIRMED`, or the `409 NO_SCHEDULE` rejection). -/
inductive ConfirmResult where
  | confirmedReturn
  | confirmed
  | noSchedule
  deriving DecidableEq, Repr

/-- The `/confirm_route` handler in `handleClient`. -/
noncomputable def confirmRoute (now : ℕ) (s : NavState) : ConfirmResult × NavState :=
  if s.routeExec.active = true ∧ s.routeExec.state = .waiting ∧
      s.routeExec.awaitingConfirm = true then
    if s.routeExec.waitingForReturnConfirm then
      let s1 := { s with routeExec := { s.routeExec with
        awaitingConfirm := false, waitingForReturnConfirm := false,
        returnModeActive := true, direction := -1, currentPoint := 0 } }
      (.confirmedReturn, beginNextWaypoint now s1)
    else
      (.confirmed, beginNextWaypoint now
        { s with routeExec := { s.routeExec with awaitingConfirm := false } })
  else (.noSchedule, s)

/-- Distance readings consumed by one `ROUTE_MOVING` tick, standing in
for the `distanciaSamples` calls: the two front samples, the two front
re-samples taken after the debounce wait, the two lateral samples, and
the probe-sensor sample. -/
structure Senses where
  dFL : ℝ
  dFR : ℝ
  dFL2 : ℝ
  dFR2 : ℝ
  dLeftSide : ℝ
  dRightSide : ℝ
  probeDist : ℝ

/-- The `ROUTE_MOVING` branch of `loop()`: obstacle debounce and
confirmation, avoidance phases 2 and 4, and the normal movement
completion check. -/
noncomputable def movingTick (now : ℕ) (z : Senses) (s : NavState) : NavState :=
  let frontMin := min z.dFL z.dFR
  if s.routeExec.obstacleActive = false ∧ s.routeExec.obstacleWaitActive = false ∧
      frontMin ≤ OBSTACLE_THRESHOLD_CM then
    { s with routeExec :=
        { s.routeExec with
            obstacleWaitActive := true, obstacleWaitStartMillis := now } }
  else if s.routeExec.obstacleActive = false ∧ s.routeExec.obstacleWaitActive = true then
    if OBSTACLE_DETECTION_DELAY_MS ≤ now - s.routeExec.obstacleWaitStartMillis then
      let frontMin2 := min z.dFL2 z.dFR2
      if frontMin2 ≤ OBSTACLE_THRESHOLD_CM then
        let side : ℤ := if z.dRightSide < z.dLeftSide then 1 else -1
        let s1 :=
          { s with
              routeExec :=
                { s.routeExec with
                    obstacleWaitActive := false, obstacleSide := side,
                    obstacleActive := true, obstacleState := 1,
                    obstacleProbePin :=
                      if side = 1 then IR_RIGHT_SIDE_PIN else IR_LEFT_SIDE_PIN,
                    obstacleMoveMaxPulses :=
                      cmToPulses s.pulsesPerRevolution AVOID_MAX_STEP_CM },
              motors := motorStop }
        startAutoTurn now ((side : ℝ) * 90) s1
      else
        { s with routeExec := { s.routeExec with obstacleWaitActive := false } }
    else s
  else if s.routeExec.obstacleActive then
    if s.routeExec.obstacleState = 2 then
      let dl := |s.encLeft - s.routeExec.obstacleMoveStartLeft|
      let dr := |s.encRight - s.routeExec.obstacleMoveStartRight|
      let maxm := max dl dr
      if OBSTACLE_THRESHOLD_CM + AVOID_CLEAR_MARGIN_CM ≤ z.probeDist ∨
          s.routeExec.obstacleMoveMaxPulses ≤ maxm then
        startAutoTurn now (-(s.routeExec.obstacleSide : ℝ) * 90)
          { s with routeExec := { s.routeExec with obstacleState := 3 },
                   motors := motorStop }
      else s
    else if s.routeExec.obstacleState = 4 then
      let dl := |s.encLeft - s.routeExec.obstacleMoveStartLeft|
      let dr := |s.encRight - s.routeExec.obstacleMoveStartRight|
      let maxm := max dl dr
      if s.routeExec.obstacleMoveTargetPulses ≤ maxm then
        let s1 :=
          { s with
              routeExec :=
                { s.routeExec with obstacleState := 5, obstacleActive := false },
              motors := motorStop }
        let dx := s1.routeExec.targetX - s1.odometry.x
        let dy := s1.routeExec.targetY - s1.odometry.y
        let dist := Real.sqrt (dx * dx + dy * dy)
        let target := cmToPulses s1.pulsesPerRevolution dist
        let s2 :=
          { s1 with
              routeExec :=
                { s1.routeExec with
                    moveTargetPulses := target,
                    moveStartLeft := s1.encLeft, moveStartRight := s1.encRight } }
        if target ≤ 0 then
          beginNextWaypoint now
            { s2 with
                routeExec :=
                  { s2.routeExec with
                      currentPoint := s2.routeExec.currentPoint + 1 } }
        else
          { s2 with motors := moveForward DEFAULT_SPEED,
                    routeExec := { s2.routeExec with state := .moving } }
      else s
    else s
  else
    let dl := |s.encLeft - s.routeExec.moveStartLeft|
    let dr := |s.encRight - s.routeExec.moveStartRight|
    let maxm := max dl dr
    if s.routeExec.moveTargetPulses ≤ maxm then
      beginNextWaypoint now
        { s with
            motors := motorStop,
            routeExec :=
              { s.routeExec with
                  currentPoint := s.routeExec.currentPoint + 1 } }
    else s

/-! ### The waypoint visiting order of `beginNextWaypoint` -/

/-- The waypoint array index visited at step `currentPoint`
(`pIndex` in `beginNextWaypoint`): `currentPoint + 1` in forward
direction, `count - 2 - currentPoint` in return direction. -/
def waypointIndex (direction count currentPoint : ℤ) : ℤ :=
  if direction = 1 then currentPoint + 1 else count - 2 - currentPoint

/-- The sequence of waypoint array indices a route execution visits:
`beginNextWaypoint` is entered with `currentPoint = 0, 1, 2, …` (the
`ROUTE_MOVING` completion check increments `currentPoint` before each
re-entry) and keeps visiting while `currentPoint < count - 1`; a route
of at most one waypoint visits nothing. -/
def visitSequence (direction count : ℤ) : List ℤ :=
  if count ≤ 1 then []
  else (List.range (count - 1).toNat).map
    (fun k : ℕ => waypointIndex direction count (k : ℤ))

/-- Speed commanded on one channel with the other at zero duty, the
commanded duty within `[MIN_SPEED, MAX_SPEED]`. -/
abbrev dutyGood (p : PwmPair) : Prop :=
  (p.rpwm = 0 ∧ MIN_SPEED ≤ p.lpwm ∧ p.lpwm ≤ MAX_SPEED) ∨
  (p.lpwm = 0 ∧ MIN_SPEED ≤ p.rpwm ∧ p.rpwm ≤ MAX_SPEED)

/-- A velocity-control state with the loop enabled and no soft-start
ramp (all other members at their defaults). -/
def velDemo : VelState := { velocityControlEnabled := true, rampTimeMs := 0 }

/-- The original driver's state, loop enabled, no ramp. -/
def velDemoMain : VelStateMain := { velocityControlEnabled := true, rampTimeMs := 0 }

/-! ### Concrete demonstration states used by the claim witnesses -/

/-- A state with no route and no wall following active (all globals at
their source initializers). -/
def navDemoIdle : NavState := {}

/-- A state whose route execution is active. -/
def routeActiveDemo : NavState := { routeExec := { active := true } }

/-- A state with wall following active and no route active. -/
def wallActiveDemo : NavState :=
  { wallFollow := { active := true, side := 1, state := 1 } }

/-- A state mid-turn whose encoders have already reached the pulse
target. -/
def turnDoneDemo : NavState :=
  { turningInProgress := true, turnTargetPulses := 5, encLeft := 7 }

/-- A state in the first tick of an obstacle-avoidance 90° turn: the
turn was just started (encoder deltas still zero, target 3501 pulses)
with avoidance phase 1 (Turn) active. -/
def avoidTurnDemo : NavState :=
  { turningInProgress := true
    turnTargetPulses := 3501
    routeExec :=
      { active := true, state := RouteState.moving, obstacleActive := true,
        obstacleSide := 1, obstacleState := 1 } }

/-- The same scenario at the tick on which the turn actually completes
(left encoder delta has reached the 3501-pulse target). -/
def avoidTurnDoneDemo : NavState :=
  { avoidTurnDemo with encLeft := 3501 }

/-- Moving state, no obstacle bookkeeping yet. -/
def movingDemoA : NavState :=
  { routeExec := { active := true, state := RouteState.moving, moveTargetPulses := 1000 } }

/-- Moving state with the debounce wait started at time 0. -/
def movingDemoB : NavState :=
  { routeExec :=
      { active := true, state := RouteState.moving, moveTargetPulses := 1000,
        obstacleWaitActive := true, obstacleWaitStartMillis := 0 } }

/-- Front minimum 25 cm seen while moving. -/
def sensesSeen : Senses := ⟨25, 40, 0, 0, 0, 0, 0⟩

/-- Re-sample after the wait still reads 25 cm (left clearance 40 cm,
right clearance 20 cm). -/
def sensesStill : Senses := ⟨25, 25, 25, 25, 40, 20, 100⟩

/-- Re-sample after the wait reads 60 cm: the obstruction was
transient. -/
def sensesCleared : Senses := ⟨25, 25, 60, 60, 40, 20, 100⟩

/-- Odometry at the origin with zeroed counters. -/
def odoDemo : OdometryState := {}

/-! ### Helper lemmas -/

theorem quadDelta_eq (inverted : Bool) (e : QuadEdge) :
    quadDelta inverted e =
      (if inverted then (-1 : ℤ) else 1) * (if e.a = e.b then (-1 : ℤ) else 1) := by
  unfold quadDelta
  cases inverted <;> by_cases h : e.a = e.b <;> simp [h]

theorem reverse_cast_range (n : ℕ) :
    ((List.range n).map (fun k : ℕ => (k : ℤ))).reverse =
      (List.range n).map (fun k : ℕ => (n : ℤ) - 1 - (k : ℤ)) := by
  have hrev : (List.range n).reverse = (List.range n).map (fun i => n - 1 - i) := by
    rw [List.range_eq_range']
    rw [List.reverse_range']
    simp [← List.range_eq_range']
  rw [← List.map_reverse, hrev, List.map_map]
  apply List.map_congr_left
  intro k hk
  rw [List.mem_range] at hk
  simp only [Function.comp_apply]
  omega

/-! ### Claim theorems -/

/-- C9: for every sequence of quadrature edges, `readLeft`/`readRight`
return the starting count plus the signed sum of per-edge deltas, where
each delta is `-1` when the two channel levels are equal and `+1`
otherwise, negated when that wheel's inversion flag is set (so setting
the flag flips the sign of every subsequent delta consistently). -/
theorem encoder_read_is_signed_edge_sum (s : EncoderState) (es : List QuadEdge) :
    readLeft (runLeftEdges es s) =
      s.leftPulses + (es.map (fun e =>
        (if s.leftInverted then (-1 : ℤ) else 1) *
          (if e.a = e.b then (-1 : ℤ) else 1))).sum
    ∧ readRight (runRightEdges es s) =
      s.rightPulses + (es.map (fun e =>
        (if s.rightInverted then (-1 : ℤ) else 1) *
          (if e.a = e.b then (-1 : ℤ) else 1))).sum := by
  constructor
  · induction es generalizing s with
    | nil => simp [runLeftEdges, readLeft]
    | cons e t ih =>
        have step : runLeftEdges (e :: t) s = runLeftEdges t (leftEncoderISR e s) := rfl
        rw [step, ih]
        simp only [leftEncoderISR, List.map_cons, List.sum_cons]
        rw [quadDelta_eq]
        ring
  · induction es generalizing s with
    | nil => simp [runRightEdges, readRight]
    | cons e t ih =>
        have step : runRightEdges (e :: t) s = runRightEdges t (rightEncoderISR e s) := rfl
        rw [step, ih]
        simp only [rightEncoderISR, List.map_cons, List.sum_cons]
        rw [quadDelta_eq]
        ring

/-- C3: for a route of `N ≥ 2` waypoints, forward execution visits the
indices `1 … N-1` in array order, return execution visits the indices
`N-2 … 0` (the reverse of array order), each visiting exactly `N-1`
waypoints; a single-waypoint route visits nothing. -/
theorem visit_sequence_skip_rule (N : ℕ) (h2 : 2 ≤ N) :
    visitSequence 1 (N : ℤ) = (List.range (N - 1)).map (fun k : ℕ => (k : ℤ) + 1)
    ∧ visitSequence (-1) (N : ℤ) =
        ((List.range (N - 1)).map (fun k : ℕ => (k : ℤ))).reverse
    ∧ (visitSequence 1 (N : ℤ)).length = N - 1
    ∧ (visitSequence (-1) (N : ℤ)).length = N - 1
    ∧ visitSequence 1 1 = []
    ∧ visitSequence (-1) 1 = [] := by
  have hgt : ¬ ((N : ℤ) ≤ 1) := by exact_mod_cast by omega
  have htn : ((N : ℤ) - 1).toNat = N - 1 := by omega
  have hfwd : visitSequence 1 (N : ℤ) = (List.range (N - 1)).map (fun k : ℕ => (k : ℤ) + 1) := by
    rw [visitSequence, if_neg hgt, htn]
    apply List.map_congr_left
    intro k _
    simp [waypointIndex]
  have hret : visitSequence (-1) (N : ℤ) =
      ((List.range (N - 1)).map (fun k : ℕ => (k : ℤ))).reverse := by
    rw [visitSequence, if_neg hgt, htn, reverse_cast_range]
    apply List.map_congr_left
    intro k hk
    rw [List.mem_range] at hk
    have : ((N - 1 : ℕ) : ℤ) = (N : ℤ) - 1 := by omega
    simp only [waypointIndex, if_neg (by norm_num : (-1 : ℤ) ≠ 1), this]
    ring
  refine ⟨hfwd, hret, ?_, ?_, by simp [visitSequence], by simp [visitSequence]⟩
  · rw [hfwd]; simp
  · rw [hret]; simp

theorem roundAway_zero : roundAway 0 = 0 := by
  norm_num [roundAway]

theorem roundAway_comp_pos {c : ℤ} (h1 : 1 ≤ c) :
    1 ≤ roundAway ((c : ℚ) * rightComp) ∧ roundAway ((c : ℚ) * rightComp) ≤ c := by
  have hc : (1 : ℚ) ≤ (c : ℚ) := by exact_mod_cast h1
  have hq : (0 : ℚ) ≤ (c : ℚ) * rightComp := by
    unfold rightComp
    nlinarith
  unfold roundAway
  rw [if_pos hq]
  constructor
  · rw [Int.le_floor]
    unfold rightComp
    push_cast
    nlinarith
  · have : ⌊(c : ℚ) * rightComp + 1 / 2⌋ < c + 1 := by
      rw [Int.floor_lt]
      unfold rightComp
      push_cast
      nlinarith
    omega

theorem roundAway_neg_arg (q : ℚ) : roundAway (-q) = -roundAway q := by
  unfold roundAway
  rcases lt_trichotomy q 0 with h | h | h
  · rw [if_pos (by linarith), if_neg (by linarith)]
    ring_nf
  · subst h
    norm_num
  · rw [if_neg (by linarith), if_pos (by linarith)]
    ring_nf

theorem roundAway_comp_neg {c : ℤ} (h1 : c ≤ -1) :
    roundAway ((c : ℚ) * rightComp) ≤ -1 ∧ c ≤ roundAway ((c : ℚ) * rightComp) := by
  have h2 : 1 ≤ -c := by omega
  have key := roundAway_comp_pos (c := -c) h2
  have hrw : ((c : ℚ)) * rightComp = -(((-c : ℤ) : ℚ) * rightComp) := by
    push_cast
    ring
  rw [hrw, roundAway_neg_arg]
  omega

theorem setLeftMotor_cases (s : ℤ) :
    (s ≠ 0 → dutyGood (setLeftMotor s))
    ∧ (1 ≤ s → s ≤ 79 → setLeftMotor s = ⟨0, MIN_SPEED⟩)
    ∧ (-79 ≤ s → s ≤ -1 → setLeftMotor s = ⟨MIN_SPEED, 0⟩)
    ∧ (s = 0 → setLeftMotor s = ⟨0, 0⟩) := by
  simp only [setLeftMotor, constrain, MIN_SPEED, MAX_SPEED]
  refine ⟨fun h => ?_, fun h1 h2 => ?_, fun h1 h2 => ?_, fun h => ?_⟩ <;>
    split_ifs <;> (try simp only [PwmPair.mk.injEq]) <;>
      (try dsimp only [dutyGood, MIN_SPEED, MAX_SPEED]) <;> omega

theorem setRightMotorMain_cases (s : ℤ) :
    (s ≠ 0 → dutyGood (setRightMotorMain s))
    ∧ (1 ≤ s → s ≤ 79 → setRightMotorMain s = ⟨0, MIN_SPEED⟩)
    ∧ (-79 ≤ s → s ≤ -1 → setRightMotorMain s = ⟨MIN_SPEED, 0⟩)
    ∧ (s = 0 → setRightMotorMain s = ⟨0, 0⟩) := by
  simp only [setRightMotorMain, constrain, MIN_SPEED, MAX_SPEED]
  refine ⟨fun h => ?_, fun h1 h2 => ?_, fun h1 h2 => ?_, fun h => ?_⟩ <;>
    split_ifs <;> (try simp only [PwmPair.mk.injEq]) <;>
      (try dsimp only [dutyGood, MIN_SPEED, MAX_SPEED]) <;> omega

theorem setRightMotor_cases (s : ℤ) :
    (s ≠ 0 → dutyGood (setRightMotor s))
    ∧ (1 ≤ s → s ≤ 79 → setRightMotor s = ⟨0, MIN_SPEED⟩)
    ∧ (-79 ≤ s → s ≤ -1 → setRightMotor s = ⟨MIN_SPEED, 0⟩)
    ∧ (s = 0 → setRightMotor s = ⟨0, 0⟩) := by
  simp only [setRightMotor, MIN_SPEED, MAX_SPEED]
  set x : ℤ := constrain s (-255) 255 with hxdef
  set t : ℤ := roundAway ((x : ℚ) * rightComp) with htdef
  set u : ℤ := constrain t (-255) 255 with hudef
  have hxb : -255 ≤ x ∧ x ≤ 255 := by
    rw [hxdef]
    unfold constrain
    split_ifs <;> omega
  have hx0 : x = 0 ↔ s = 0 := by
    rw [hxdef]
    unfold constrain
    split_ifs <;> (try simp) <;> omega
  have hx79 : 1 ≤ s → s ≤ 79 → x = s := by
    intro h1 h2
    rw [hxdef]
    unfold constrain
    split_ifs <;> omega
  have hx79n : -79 ≤ s → s ≤ -1 → x = s := by
    intro h1 h2
    rw [hxdef]
    unfold constrain
    split_ifs <;> omega
  have ht0 : x = 0 → t = 0 := by
    intro h0
    rw [htdef, h0]
    push_cast
    rw [zero_mul]
    exact roundAway_zero
  have htneg : x ≤ -1 → t ≤ -1 ∧ x ≤ t := fun hx => roundAway_comp_neg hx
  have htpos : 1 ≤ x → 1 ≤ t ∧ t ≤ x := fun hx => roundAway_comp_pos hx
  have htr : -255 ≤ t ∧ t ≤ 255 := by
    rcases lt_trichotomy x 0 with h | h | h
    · have := htneg (by omega)
      omega
    · have := ht0 h
      omega
    · have := htpos (by omega)
      omega
  have hu : u = t := by
    rw [hudef]
    unfold constrain
    split_ifs <;> omega
  have hkey : (x = 0 ∧ t = 0) ∨ (x ≤ -1 ∧ t ≤ -1 ∧ x ≤ t) ∨ (1 ≤ x ∧ 1 ≤ t ∧ t ≤ x) := by
    rcases lt_trichotomy x 0 with h | h | h
    · exact Or.inr (Or.inl ⟨by omega, htneg (by omega)⟩)
    · exact Or.inl ⟨h, ht0 h⟩
    · exact Or.inr (Or.inr ⟨by omega, htpos (by omega)⟩)
  refine ⟨fun h => ?_, fun h1 h2 => ?_, fun h1 h2 => ?_, fun h => ?_⟩ <;>
    [(have hx' : x ≠ 0 := fun hx => h (hx0.mp hx));
     (have hxeq := hx79 h1 h2); (have hxeq := hx79n h1 h2); (have hxz := hx0.mpr h)] <;>
    split_ifs <;> (try simp only [PwmPair.mk.injEq]) <;>
      (try dsimp only [dutyGood, MIN_SPEED, MAX_SPEED]) <;> omega

/-- C10: a nonzero commanded speed always leaves the wheel's active
channel with a duty of magnitude in `[MIN_SPEED, MAX_SPEED] = [80, 255]`
and the other channel at zero; a commanded magnitude in `1..79` is
silently raised to `80`; only a commanded speed of exactly `0` writes
zero duty on both channels.  Proved for `setLeftMotor` (same text in
both driver files), the compensated `setRightMotor` of the reworked
driver, and the uncompensated `setRightMotor` of the original driver. -/
theorem motor_duty_floor (speed : ℤ) :
    (speed ≠ 0 →
      dutyGood (setLeftMotor speed) ∧ dutyGood (setRightMotor speed) ∧
        dutyGood (setRightMotorMain speed))
    ∧ (1 ≤ speed → speed ≤ 79 →
        setLeftMotor speed = ⟨0, MIN_SPEED⟩ ∧ setRightMotor speed = ⟨0, MIN_SPEED⟩ ∧
          setRightMotorMain speed = ⟨0, MIN_SPEED⟩)
    ∧ (-79 ≤ speed → speed ≤ -1 →
        setLeftMotor speed = ⟨MIN_SPEED, 0⟩ ∧ setRightMotor speed = ⟨MIN_SPEED, 0⟩ ∧
          setRightMotorMain speed = ⟨MIN_SPEED, 0⟩)
    ∧ (speed = 0 →
        setLeftMotor speed = ⟨0, 0⟩ ∧ setRightMotor speed = ⟨0, 0⟩ ∧
          setRightMotorMain speed = ⟨0, 0⟩) := by
  obtain ⟨l1, l2, l3, l4⟩ := setLeftMotor_cases speed
  obtain ⟨r1, r2, r3, r4⟩ := setRightMotor_cases speed
  obtain ⟨m1, m2, m3, m4⟩ := setRightMotorMain_cases speed
  exact ⟨fun h => ⟨l1 h, r1 h, m1 h⟩,
    fun h1 h2 => ⟨l2 h1 h2, r2 h1 h2, m2 h1 h2⟩,
    fun h1 h2 => ⟨l3 h1 h2, r3 h1 h2, m3 h1 h2⟩,
    fun h => ⟨l4 h, r4 h, m4 h⟩⟩

/-- C10 witness: the automatic turn duty `51` lies in the silently-raised
band `1..79` and indeed produces duty `80` on the active channel. -/
theorem motor_duty_floor_witness :
    (1 : ℤ) ≤ 51 ∧ (51 : ℤ) ≤ 79
    ∧ (setLeftMotor 51 = ⟨0, MIN_SPEED⟩ ∧ setRightMotor 51 = ⟨0, MIN_SPEED⟩ ∧
        setRightMotorMain 51 = ⟨0, MIN_SPEED⟩) :=
  ⟨by decide, by decide, (motor_duty_floor 51).2.1 (by decide) (by decide)⟩

/-! ### C8: per-wheel versus shared velocity PID -/

theorem velMain_left_output_a :
    (updateVelocityControlMain velDemoMain 10000 0 10 1000).2.map Prod.fst =
      some (-255) := by
  norm_num [updateVelocityControlMain, velDemoMain, clampIntegral, rampToward,
    roundAway, constrain, MAX_SPEED, rightCompMain]

theorem velMain_left_output_b :
    (updateVelocityControlMain velDemoMain 10000 (-10000) 10 1000).2.map Prod.fst =
      some 0 := by
  norm_num [updateVelocityControlMain, velDemoMain, clampIntegral, rampToward,
    roundAway, constrain, MAX_SPEED, rightCompMain]

/-- C8 counterexample: in the original `AMR_Complete` driver the left
wheel's PWM command is not a function of the left wheel's own measured
speed — changing only the right wheel's pulse delta changes the left
command, because the update averages both deltas into one shared
measured value for a single PID. -/
theorem shared_pid_uses_other_wheel :
    ¬ ∀ (s : VelStateMain) (leftDelta rightDelta rightDelta' : ℤ) (dtMs now : ℕ),
        (updateVelocityControlMain s leftDelta rightDelta dtMs now).2.map Prod.fst =
          (updateVelocityControlMain s leftDelta rightDelta' dtMs now).2.map Prod.fst := by
  intro h
  have h2 := h velDemoMain 10000 0 (-10000) 10 1000
  rw [velMain_left_output_a, velMain_left_output_b] at h2
  exact absurd h2 (by simp)

/-- C8 amended: in the reworked driver, on every update that passes the
rate limiter the error recorded for each wheel equals that wheel's
applied setpoint minus its own measured speed `deltaPulses / elapsed
seconds`, and every left-wheel output and state component is
independent of the right wheel's delta (and symmetrically for the
right wheel). -/
theorem per_wheel_velocity_pid (s : VelState) (leftDelta rightDelta rightDelta' : ℤ)
    (dtMs now : ℕ) (hen : s.velocityControlEnabled = true) (hdt : dtMs ≠ 0)
    (hrate : s.pidIntervalMs ≤ now - s.lastPIDMillis) :
    ((updateVelocityControl s leftDelta rightDelta dtMs now).1.prevErrorL
        = (updateVelocityControl s leftDelta rightDelta dtMs now).1.appliedPpsLeft
          - (leftDelta : ℚ) / (((now - s.lastPIDMillis : ℕ) : ℚ) / 1000))
    ∧ ((updateVelocityControl s leftDelta rightDelta dtMs now).1.prevErrorR
        = (updateVelocityControl s leftDelta rightDelta dtMs now).1.appliedPpsRight
          - (rightDelta : ℚ) / (((now - s.lastPIDMillis : ℕ) : ℚ) / 1000))
    ∧ ((updateVelocityControl s leftDelta rightDelta dtMs now).1.prevErrorL
          = (updateVelocityControl s leftDelta rightDelta' dtMs now).1.prevErrorL
        ∧ (updateVelocityControl s leftDelta rightDelta dtMs now).1.integralL
          = (updateVelocityControl s leftDelta rightDelta' dtMs now).1.integralL
        ∧ (updateVelocityControl s leftDelta rightDelta dtMs now).2.map Prod.fst
          = (updateVelocityControl s leftDelta rightDelta' dtMs now).2.map Prod.fst)
    ∧ (∀ leftDelta' : ℤ,
        (updateVelocityControl s leftDelta rightDelta dtMs now).1.prevErrorR
          = (updateVelocityControl s leftDelta' rightDelta dtMs now).1.prevErrorR
        ∧ (updateVelocityControl s leftDelta rightDelta dtMs now).1.integralR
          = (updateVelocityControl s leftDelta' rightDelta dtMs now).1.integralR
        ∧ (updateVelocityControl s leftDelta rightDelta dtMs now).2.map Prod.snd
          = (updateVelocityControl s leftDelta' rightDelta dtMs now).2.map Prod.snd) := by
  have hen' : ¬ (s.velocityControlEnabled = false) := by simp [hen]
  have hrate' : ¬ (now - s.lastPIDMillis < s.pidIntervalMs) := not_lt.mpr hrate
  unfold updateVelocityControl
  simp only [hen', hdt, hrate', if_false, if_neg, ite_false]
  refine ⟨rfl, rfl, ⟨rfl, rfl, rfl⟩, fun _ => ⟨rfl, rfl, rfl⟩⟩

/-- C8 witness: the per-wheel error formula evaluated on a concrete
update. -/
theorem per_wheel_velocity_pid_witness :
    velDemo.velocityControlEnabled = true ∧ (10 : ℕ) ≠ 0
    ∧ velDemo.pidIntervalMs ≤ 1000 - velDemo.lastPIDMillis
    ∧ (updateVelocityControl velDemo 100 0 10 1000).1.prevErrorL
        = (updateVelocityControl velDemo 100 0 10 1000).1.appliedPpsLeft
          - (100 : ℚ) / (((1000 - velDemo.lastPIDMillis : ℕ) : ℚ) / 1000) :=
  ⟨rfl, by decide, by norm_num [velDemo],
    (per_wheel_velocity_pid velDemo 100 0 50 10 1000 rfl (by decide) (by norm_num [velDemo])).1⟩

/-- C3 witness: the skip rule evaluated on a route of 4 waypoints. -/
theorem visit_sequence_skip_rule_witness :
    2 ≤ 4
    ∧ (visitSequence 1 ((4 : ℕ) : ℤ) = (List.range (4 - 1)).map (fun k : ℕ => (k : ℤ) + 1)
       ∧ visitSequence (-1) ((4 : ℕ) : ℤ) =
           ((List.range (4 - 1)).map (fun k : ℕ => (k : ℤ))).reverse
       ∧ (visitSequence 1 ((4 : ℕ) : ℤ)).length = 4 - 1
       ∧ (visitSequence (-1) ((4 : ℕ) : ℤ)).length = 4 - 1
       ∧ visitSequence 1 1 = []
       ∧ visitSequence (-1) 1 = []) :=
  ⟨by decide, visit_sequence_skip_rule 4 (by decide)⟩
/-! ### Navigation helper lemmas -/

theorem routeExec_stopWallFollowing (s : NavState) :
    (stopWallFollowing s).routeExec = s.routeExec := by
  unfold stopWallFollowing
  split_ifs <;> rfl

theorem wallFollow_stopRouteExecution (s : NavState) :
    (stopRouteExecution s).wallFollow = s.wallFollow := by
  unfold stopRouteExecution
  split_ifs <;> rfl

set_option maxHeartbeats 1000000 in
theorem wallFollow_beginNextWaypoint (now : ℕ) (s : NavState) :
    (beginNextWaypoint now s).wallFollow = s.wallFollow := by
  simp only [beginNextWaypoint]
  split_ifs <;>
    first
      | rfl
      | exact wallFollow_stopRouteExecution s

/-- C7: `startRouteExecution` returns `false` and leaves the whole state
unchanged when a route is already active or the route index is out of
range, and a confirm request with no pending confirmation is answered
`NO_SCHEDULE` without touching the state. -/
theorem route_start_confirm_rejection (s : NavState) (idx : ℤ) (ret : Bool) (d now : ℕ) :
    (s.routeExec.active = true → startRouteExecution idx ret d now s = (false, s))
    ∧ (idx < 0 ∨ ROUTE_COUNT ≤ idx → startRouteExecution idx ret d now s = (false, s))
    ∧ (¬(s.routeExec.active = true ∧ s.routeExec.state = RouteState.waiting ∧
          s.routeExec.awaitingConfirm = true) →
        confirmRoute now s = (ConfirmResult.noSchedule, s)) := by
  refine ⟨fun h => ?_, fun h => ?_, fun h => ?_⟩
  · unfold startRouteExecution
    rw [if_pos h]
  · unfold startRouteExecution
    by_cases h2 : s.routeExec.active = true
    · rw [if_pos h2]
    · rw [if_neg h2, if_pos h]
  · unfold confirmRoute
    rw [if_neg h]

/-- C7 witness: the three rejections evaluated on concrete states. -/
theorem route_start_confirm_rejection_witness :
    routeActiveDemo.routeExec.active = true
    ∧ startRouteExecution 0 false 5 0 routeActiveDemo = (false, routeActiveDemo)
    ∧ ((7 : ℤ) < 0 ∨ ROUTE_COUNT ≤ 7)
    ∧ startRouteExecution 7 false 5 0 navDemoIdle = (false, navDemoIdle)
    ∧ ¬(navDemoIdle.routeExec.active = true ∧
          navDemoIdle.routeExec.state = RouteState.waiting ∧
          navDemoIdle.routeExec.awaitingConfirm = true)
    ∧ confirmRoute 0 navDemoIdle = (ConfirmResult.noSchedule, navDemoIdle) := by
  have h1 := (route_start_confirm_rejection routeActiveDemo 0 false 5 0).1 rfl
  have h2 := (route_start_confirm_rejection navDemoIdle 7 false 5 0).2.1
    (Or.inr (by norm_num [ROUTE_COUNT]))
  have hno : ¬(navDemoIdle.routeExec.active = true ∧
      navDemoIdle.routeExec.state = RouteState.waiting ∧
      navDemoIdle.routeExec.awaitingConfirm = true) := by
    intro hc
    exact absurd hc.1 (by simp [navDemoIdle])
  have h3 := (route_start_confirm_rejection navDemoIdle 0 false 5 0).2.2 hno
  exact ⟨rfl, h1, Or.inr (by norm_num [ROUTE_COUNT]), h2, hno, h3⟩

/-- C2 counterexample: starting a route while wall following is active
does not deactivate wall following — `startRouteExecution` never touches
the wall-follow state, so both `active` flags are true afterwards. -/
theorem route_start_keeps_wall_following :
    ¬ ∀ (s : NavState) (idx : ℤ) (ret : Bool) (d now : ℕ),
        s.wallFollow.active = true →
        ((startRouteExecution idx ret d now s).2).wallFollow.active = false := by
  intro h
  have h2 := h wallActiveDemo 0 false 5 0 rfl
  have h3 : ((startRouteExecution 0 false 5 0 wallActiveDemo).2).wallFollow.active = true := by
    unfold startRouteExecution
    norm_num [wallActiveDemo, ROUTE_COUNT]
  rw [h2] at h3
  exact absurd h3 (by decide)

/-- C2 amended: starting wall following forcibly deactivates an active
route (and activates wall following), but starting a route leaves the
wall-follow state exactly as it was — the exclusion is enforced in one
direction only. -/
theorem wall_follow_route_exclusion (s : NavState) (side idx : ℤ) (ret : Bool)
    (d now : ℕ) :
    (startWallFollowing side s).routeExec.active = false
    ∧ (startWallFollowing side s).wallFollow.active = true
    ∧ ((startRouteExecution idx ret d now s).2).wallFollow = s.wallFollow := by
  refine ⟨?_, rfl, ?_⟩
  · cases hw : s.wallFollow.active <;> cases hr0 : s.routeExec.active <;>
      simp [startWallFollowing, stopWallFollowing, stopRouteExecution, hw, hr0]
  · unfold startRouteExecution
    split_ifs <;> simp [wallFollow_beginNextWaypoint]

/-- C4: `startAutoTurn` derives the pulse target as
`⌊|angleDelta| * ppr * wheelBase / (360 * wheelDiameter) + 0.5⌋`
(the rounding of the nonnegative geometric formula), and on every tick
on which the maximal absolute encoder delta has reached that target,
`handleAutoTurn` stops the motors, clears `turningInProgress` and
reports completion — never a timeout, whatever `millis()` says, because
the completion branch returns before the timeout check. -/
theorem auto_turn_target_and_completion (s : NavState) (now : ℕ) (angleDelta : ℝ) :
    (startAutoTurn now angleDelta s).turnTargetPulses
      = ⌊|angleDelta| * (s.pulsesPerRevolution : ℝ) * WHEEL_BASE_CM /
          (360 * WHEEL_DIAMETER_CM) + 0.5⌋
    ∧ (s.turningInProgress = true →
        s.turnTargetPulses ≤
          max |s.encLeft - s.turnStartLeft0| |s.encRight - s.turnStartRight0| →
        (handleAutoTurn now s).2 = TurnSignal.completed
        ∧ (handleAutoTurn now s).1.turningInProgress = false
        ∧ (handleAutoTurn now s).1.motors = motorStop) := by
  refine ⟨rfl, fun h1 h2 => ?_⟩
  simp only [handleAutoTurn, h1]
  rw [if_neg (by simp), if_pos h2]
  split_ifs <;> exact ⟨rfl, rfl, rfl⟩

/-- C4 witness: a finished turn (target 5, encoder delta 7) reports
completion with the motors stopped. -/
theorem auto_turn_target_and_completion_witness :
    turnDoneDemo.turningInProgress = true
    ∧ turnDoneDemo.turnTargetPulses ≤
        max |turnDoneDemo.encLeft - turnDoneDemo.turnStartLeft0|
          |turnDoneDemo.encRight - turnDoneDemo.turnStartRight0|
    ∧ ((handleAutoTurn 99999 turnDoneDemo).2 = TurnSignal.completed
       ∧ (handleAutoTurn 99999 turnDoneDemo).1.turningInProgress = false
       ∧ (handleAutoTurn 99999 turnDoneDemo).1.motors = motorStop) :=
  ⟨rfl, by norm_num [turnDoneDemo],
    (auto_turn_target_and_completion turnDoneDemo 99999 90).2 rfl
      (by norm_num [turnDoneDemo])⟩

/-- C1 (bug evidence): on the very first `handleAutoTurn` tick of the
avoidance turn — the turn far from complete, `maxMoved = 0 < 3501` —
the machine already advances phase 1 → 2 and commands forward motion
(`moveForward`, a nonzero duty on both wheels) while
`turningInProgress` is still `true`; and on the tick on which the turn
does complete, the completion branch returns without advancing the
phase, which stays 1.  This contradicts the claim (and the code's own
comments) that the advance happens exactly on turn completion. -/
theorem obstacle_phase_advances_during_turn :
    ((handleAutoTurn 0 avoidTurnDemo).1.routeExec.obstacleState = 2
     ∧ (handleAutoTurn 0 avoidTurnDemo).1.turningInProgress = true
     ∧ (handleAutoTurn 0 avoidTurnDemo).1.motors = moveForward DEFAULT_SPEED
     ∧ moveForward DEFAULT_SPEED ≠ motorStop)
    ∧ ((handleAutoTurn 0 avoidTurnDoneDemo).2 = TurnSignal.completed
       ∧ (handleAutoTurn 0 avoidTurnDoneDemo).1.turningInProgress = false
       ∧ (handleAutoTurn 0 avoidTurnDoneDemo).1.routeExec.obstacleState = 1) := by
  constructor
  · refine ⟨?_, ?_, ?_, ?_⟩ <;>
      · try simp only [handleAutoTurn, avoidTurnDemo]
        norm_num [moveForward, constrain, roundAway, rightComp, motorStop,
          MIN_SPEED, MAX_SPEED, DEFAULT_SPEED]
  · refine ⟨?_, ?_, ?_⟩ <;>
      · simp only [handleAutoTurn, avoidTurnDoneDemo, avoidTurnDemo]
        norm_num

/-- C5: in the `ROUTE_MOVING` branch with no avoidance active, a front
minimum at or below the 30 cm threshold only records a debounce wait
(flag plus timestamp, everything else unchanged — no avoidance, no
motor command); once the 2000 ms interval has elapsed, avoidance starts
(phase 1, a turn in progress) exactly when the re-sampled front minimum
is still at or below the threshold, and otherwise the wait flag is
cleared and the state is otherwise untouched, so normal movement toward
the waypoint continues. -/
theorem obstacle_debounce (s : NavState) (z : Senses) (now : ℕ) :
    (s.routeExec.obstacleActive = false → s.routeExec.obstacleWaitActive = false →
      min z.dFL z.dFR ≤ OBSTACLE_THRESHOLD_CM →
      movingTick now z s =
        { s with routeExec :=
            { s.routeExec with
                obstacleWaitActive := true, obstacleWaitStartMillis := now } })
    ∧ (s.routeExec.obstacleActive = false → s.routeExec.obstacleWaitActive = true →
      OBSTACLE_DETECTION_DELAY_MS ≤ now - s.routeExec.obstacleWaitStartMillis →
      min z.dFL2 z.dFR2 ≤ OBSTACLE_THRESHOLD_CM →
      (movingTick now z s).routeExec.obstacleActive = true
      ∧ (movingTick now z s).routeExec.obstacleState = 1
      ∧ (movingTick now z s).routeExec.obstacleWaitActive = false
      ∧ (movingTick now z s).turningInProgress = true)
    ∧ (s.routeExec.obstacleActive = false → s.routeExec.obstacleWaitActive = true →
      OBSTACLE_DETECTION_DELAY_MS ≤ now - s.routeExec.obstacleWaitStartMillis →
      OBSTACLE_THRESHOLD_CM < min z.dFL2 z.dFR2 →
      movingTick now z s =
        { s with routeExec := { s.routeExec with obstacleWaitActive := false } }) := by
  refine ⟨fun hA hB hC => ?_, fun hA hB hT hC => ?_, fun hA hB hT hC => ?_⟩
  · simp only [movingTick]
    rw [if_pos ⟨hA, hB, hC⟩]
  · have hn1 : ¬(s.routeExec.obstacleActive = false ∧
        s.routeExec.obstacleWaitActive = false ∧
        min z.dFL z.dFR ≤ OBSTACLE_THRESHOLD_CM) := by
      rintro ⟨-, hB2, -⟩
      rw [hB] at hB2
      exact absurd hB2 (by decide)
    simp only [movingTick]
    rw [if_neg hn1, if_pos ⟨hA, hB⟩, if_pos hT, if_pos hC]
    exact ⟨rfl, rfl, rfl, rfl⟩
  · have hn1 : ¬(s.routeExec.obstacleActive = false ∧
        s.routeExec.obstacleWaitActive = false ∧
        min z.dFL z.dFR ≤ OBSTACLE_THRESHOLD_CM) := by
      rintro ⟨-, hB2, -⟩
      rw [hB] at hB2
      exact absurd hB2 (by decide)
    simp only [movingTick]
    rw [if_neg hn1, if_pos ⟨hA, hB⟩, if_pos hT, if_neg (not_le.mpr hC)]

/-- C5 witness: 25 cm starts the wait; a 25 cm re-sample at `now = 2500`
triggers avoidance; a 60 cm re-sample clears the wait without
avoidance. -/
theorem obstacle_debounce_witness :
    (movingTick 100 sensesSeen movingDemoA).routeExec.obstacleWaitActive = true
    ∧ (movingTick 100 sensesSeen movingDemoA).routeExec.obstacleActive = false
    ∧ (movingTick 2500 sensesStill movingDemoB).routeExec.obstacleActive = true
    ∧ (movingTick 2500 sensesStill movingDemoB).routeExec.obstacleState = 1
    ∧ (movingTick 2500 sensesCleared movingDemoB).routeExec.obstacleActive = false
    ∧ (movingTick 2500 sensesCleared movingDemoB).routeExec.obstacleWaitActive = false := by
  have h1 := (obstacle_debounce movingDemoA sensesSeen 100).1 rfl rfl
    (by norm_num [sensesSeen, OBSTACLE_THRESHOLD_CM, min_def])
  have h2 := (obstacle_debounce movingDemoB sensesStill 2500).2.1 rfl rfl
    (by norm_num [movingDemoB, OBSTACLE_DETECTION_DELAY_MS])
    (by norm_num [sensesStill, OBSTACLE_THRESHOLD_CM, min_def])
  have h3 := (obstacle_debounce movingDemoB sensesCleared 2500).2.2 rfl rfl
    (by norm_num [movingDemoB, OBSTACLE_DETECTION_DELAY_MS])
    (by norm_num [sensesCleared, OBSTACLE_THRESHOLD_CM, min_def])
  rw [h1, h3]
  exact ⟨rfl, rfl, h2.1, h2.2.1, rfl, rfl⟩

/-- C6: every `Odometry::update` assigns the re-normalized heading —
the old heading plus `(rightDist − leftDist) / wheelBase`, passed
through the source's normalization loops, landing in `[-π, π]` and
differing from the raw sum by a multiple of `2π` — and leaves `(x, y)`
exactly unchanged whenever the midpoint displacement magnitude is not
above the `0.001` cm epsilon; in particular a pure in-place rotation
(equal and opposite wheel pulse deltas) keeps the position and turns
the heading by the rotation angle, normalized. -/
theorem odometry_pose_update (ppr l r : ℤ) (o : OdometryState) :
    ((odometryUpdate ppr l r o).theta
        = normalizeAngle Real.pi (o.theta +
            (pulsesToCentimeters ppr (r - o.lastRightPulses)
              - pulsesToCentimeters ppr (l - o.lastLeftPulses)) / WHEEL_BASE_CM)
      ∧ -Real.pi ≤ (odometryUpdate ppr l r o).theta
      ∧ (odometryUpdate ppr l r o).theta ≤ Real.pi
      ∧ ∃ k : ℤ, (odometryUpdate ppr l r o).theta
          = o.theta + (pulsesToCentimeters ppr (r - o.lastRightPulses)
              - pulsesToCentimeters ppr (l - o.lastLeftPulses)) / WHEEL_BASE_CM
            + 2 * Real.pi * k)
    ∧ (|(pulsesToCentimeters ppr (l - o.lastLeftPulses)
          + pulsesToCentimeters ppr (r - o.lastRightPulses)) / 2| ≤ DIST_EPS_CM →
        (odometryUpdate ppr l r o).x = o.x ∧ (odometryUpdate ppr l r o).y = o.y)
    ∧ (l - o.lastLeftPulses = -(r - o.lastRightPulses) →
        (odometryUpdate ppr l r o).x = o.x ∧ (odometryUpdate ppr l r o).y = o.y
        ∧ (odometryUpdate ppr l r o).theta
            = normalizeAngle Real.pi (o.theta +
                2 * pulsesToCentimeters ppr (r - o.lastRightPulses) / WHEEL_BASE_CM)) := by
  have htheta : (odometryUpdate ppr l r o).theta
      = normalizeAngle Real.pi (o.theta +
          (pulsesToCentimeters ppr (r - o.lastRightPulses)
            - pulsesToCentimeters ppr (l - o.lastLeftPulses)) / WHEEL_BASE_CM) := rfl
  have hxy : |(pulsesToCentimeters ppr (l - o.lastLeftPulses)
        + pulsesToCentimeters ppr (r - o.lastRightPulses)) / 2| ≤ DIST_EPS_CM →
      (odometryUpdate ppr l r o).x = o.x ∧ (odometryUpdate ppr l r o).y = o.y := by
    intro h
    constructor <;>
      · simp only [odometryUpdate]
        rw [if_neg (not_lt.mpr h)]
  refine ⟨⟨htheta, ?_, ?_, ?_⟩, hxy, fun hrot => ?_⟩
  · rw [htheta]
    exact (normalizeAngle_mem Real.pi_pos _).1
  · rw [htheta]
    exact (normalizeAngle_mem Real.pi_pos _).2
  · rw [htheta]
    exact normalizeAngle_sub Real.pi _
  · have hdl : pulsesToCentimeters ppr (l - o.lastLeftPulses)
        = -pulsesToCentimeters ppr (r - o.lastRightPulses) := by
      rw [hrot]
      unfold pulsesToCentimeters
      push_cast
      ring
    have havg : |(pulsesToCentimeters ppr (l - o.lastLeftPulses)
        + pulsesToCentimeters ppr (r - o.lastRightPulses)) / 2| ≤ DIST_EPS_CM := by
      rw [hdl]
      norm_num [DIST_EPS_CM]
    obtain ⟨hx, hy⟩ := hxy havg
    refine ⟨hx, hy, ?_⟩
    rw [htheta, hdl]
    congr 1
    ring

/-- C6 witness: a pure in-place rotation of ±5 pulses leaves the
position at the origin and turns the heading by the (already
normalized) rotation angle `(155/217043)·π`. -/
theorem odometry_pose_update_witness :
    ((-5 : ℤ) - odoDemo.lastLeftPulses = -((5 : ℤ) - odoDemo.lastRightPulses))
    ∧ (odometryUpdate 3418 (-5) 5 odoDemo).x = odoDemo.x
    ∧ (odometryUpdate 3418 (-5) 5 odoDemo).y = odoDemo.y
    ∧ (odometryUpdate 3418 (-5) 5 odoDemo).theta = 155 / 217043 * Real.pi := by
  have hrot : (-5 : ℤ) - odoDemo.lastLeftPulses = -((5 : ℤ) - odoDemo.lastRightPulses) := by
    norm_num [odoDemo]
  have h := (odometry_pose_update 3418 (-5) 5 odoDemo).2.2 hrot
  have harg : odoDemo.theta
      + 2 * pulsesToCentimeters 3418 (5 - odoDemo.lastRightPulses) / WHEEL_BASE_CM
      = 155 / 217043 * Real.pi := by
    show (0 : ℝ) + 2 * pulsesToCentimeters 3418 (5 - 0) / WHEEL_BASE_CM
        = 155 / 217043 * Real.pi
    unfold pulsesToCentimeters WHEEL_CIRCUMFERENCE_CM WHEEL_DIAMETER_CM WHEEL_BASE_CM
    push_cast
    ring
  refine ⟨hrot, h.1, h.2.1, ?_⟩
  rw [h.2.2, harg, normalizeAngle_of_mem] <;> nlinarith [Real.pi_pos]

end AMR
